import Mathlib

/-!
Verification of the FlowCraft workflow generator and executor.

The generator (`generateWorkflow` and its template helpers) is a shallow
embedding of the rule-based natural-language-to-workflow translator; the
executor (`executeWorkflow`) embeds the sequential, dependency-respecting
simulation engine.  JavaScript strings are modelled as Lean `String`
(code points, ASCII-faithful), `toLowerCase`/`trim`/`includes` as the
structural functions below, wall-clock identifiers and timestamps as
explicit parameters, `Math.random` draws as an oracle `Nat → Bool`
indexed by draw count, and the in-place mutation of the execution record
as explicit state passing that additionally records the sequence of
log-array values (`trace`) and the emitted progress snapshots (`snaps`).
-/

/-- Embedding of JavaScript `String.prototype.toLowerCase` (ASCII-faithful). -/
def toLowerStr (s : String) : String := String.mk (s.toList.map Char.toLower)

/-- Embedding of JavaScript `String.prototype.trim`. -/
def trimStr (s : String) : String :=
  String.mk (((s.toList.dropWhile Char.isWhitespace).reverse.dropWhile Char.isWhitespace).reverse)

/-- Is `pat` an initial segment of `cs`? -/
def charsHavePre : List Char → List Char → Bool
  | [], _ => true
  | _ :: _, [] => false
  | p :: ps, c :: cs => p == c && charsHavePre ps cs

/-- Does `pat` occur contiguously inside `cs`? -/
def charsContain (pat : List Char) : List Char → Bool
  | [] => pat.isEmpty
  | c :: cs => charsHavePre pat (c :: cs) || charsContain pat cs

/-- Embedding of JavaScript `String.prototype.includes`. -/
def strIncludes (s pat : String) : Bool := charsContain pat.toList s.toList

/-- Step kinds, the closed TS union `action | condition | delay | notification`. -/
inductive StepType
  | action
  | condition
  | delay
  | notification
deriving DecidableEq, Repr

/-- Workflow domains, the closed TS union in `types/workflow`. -/
inductive Domain
  | reminders
  | automation
  | appSetup
  | general
deriving DecidableEq, Repr

/-- Trigger kinds, the closed TS union `event | schedule | manual`. -/
inductive TriggerType
  | event
  | schedule
  | manual
deriving DecidableEq, Repr

/-- Per-step log status, the closed TS union in `ExecutionLog`. -/
inductive LogStatus
  | pending
  | running
  | completed
  | failed
deriving DecidableEq, Repr

/-- Overall execution status, the closed TS union in `WorkflowExecution`. -/
inductive ExecStatus
  | idle
  | running
  | completed
  | failed
deriving DecidableEq, Repr

/-- The open `config` record of a step, restricted to the keys the
repository actually writes or reads; an absent key is `none`. -/
structure StepConfig where
  command : Option String := none
  framework : Option String := none
  packages : Option (List String) := none
  testFramework : Option String := none
  port : Option Nat := none
  frequency : Option String := none
  time : Option String := none
  timezone : Option String := none
  message : Option String := none
  channels : Option (List String) := none
  channel : Option String := none
  priority : Option String := none
  action : Option String := none
  details : Option String := none
  required : Option (List String) := none
  template : Option String := none
  includeTimestamp : Option Bool := none
  retryOnFailure : Option Bool := none
  maxRetries : Option Nat := none
deriving DecidableEq, Repr

/-- The optional type-specific trigger config. -/
structure TriggerConfig where
  event : Option String := none
  schedule : Option String := none
  cron : Option String := none
deriving DecidableEq, Repr

/-- `WorkflowTrigger` from `types/workflow`. -/
structure WorkflowTrigger where
  type : TriggerType
  description : String
  config : Option TriggerConfig := none
deriving DecidableEq, Repr

/-- `WorkflowStep` from `types/workflow`. -/
structure WorkflowStep where
  id : String
  type : StepType
  title : String
  description : String
  reasoning : String
  config : StepConfig
  dependencies : Option (List String) := none
deriving DecidableEq, Repr

/-- Workflow metadata; `createdAt` (a wall-clock timestamp in the source)
is an explicit parameter of the generator here. -/
structure WorkflowMetadata where
  createdAt : String
  userInput : String
  agentReasoning : String
deriving DecidableEq, Repr

/-- `Workflow` from `types/workflow`; the source generates `id` from
`Date.now()` plus randomness, modelled as an explicit parameter. -/
structure Workflow where
  id : String
  name : String
  description : String
  domain : Domain
  trigger : WorkflowTrigger
  steps : List WorkflowStep
  metadata : WorkflowMetadata
deriving DecidableEq, Repr

/-- The generator result: the workflow plus the optional clarification
fields (absent fields of the TS object literal are `none`). -/
structure GeneratorResult where
  workflow : Workflow
  clarificationNeeded : Option Bool := none
  clarificationQuestion : Option String := none
deriving DecidableEq, Repr

/-- The time-unit alternatives of the regex `/(\d+)\s*(am|pm|hour|minute|day|week)/`. -/
def timeUnits : List String := ["am", "pm", "hour", "minute", "day", "week"]

/-- One attempt of the time regex at the start of `cs`: greedy digits,
greedy whitespace, then one unit literal.  (No alternative starts with a
digit or whitespace, so the greedy attempt is the only possible one, and
the unit first characters are pairwise distinct.) -/
def tryTimeMatchAt (cs : List Char) : Option (List Char) :=
  let digits := cs.takeWhile Char.isDigit
  if digits.isEmpty then none
  else
    let rest1 := cs.drop digits.length
    let spaces := rest1.takeWhile Char.isWhitespace
    let rest2 := rest1.drop spaces.length
    match timeUnits.find? (fun u => charsHavePre u.toList rest2) with
    | some u => some (digits ++ spaces ++ u.toList)
    | none => none

/-- Leftmost match of the time regex: try every start position in order. -/
def findTimeMatch : List Char → Option (List Char)
  | [] => none
  | c :: cs =>
    match tryTimeMatchAt (c :: cs) with
    | some m => some m
    | none => findTimeMatch cs

/-- `input.match(/(\d+)\s*(am|pm|hour|minute|day|week)/)`, returning the
whole matched text (`match[0]`). -/
def reminderTimeMatch (s : String) : Option String :=
  (findTimeMatch s.toList).map String.mk

/-- Case-insensitive character comparison, for the `/i` regex flag. -/
def charMatchesCI (p c : Char) : Bool := p.toLower == c.toLower

/-- Is `pat` a case-insensitive initial segment of `cs`? -/
def charsHavePreCI : List Char → List Char → Bool
  | [], _ => true
  | _ :: _, [] => false
  | p :: ps, c :: cs => charMatchesCI p c && charsHavePreCI ps cs

/-- JavaScript line terminators, which `.` does not match. -/
def isLineTerm (c : Char) : Bool :=
  c.val == 10 || c.val == 13 || c.val == 0x2028 || c.val == 0x2029

/-- Does `(\s+at|\s+every|$)` match at the start of `cs`? -/
def groupTwoAt (cs : List Char) : Bool :=
  let spaces := cs.takeWhile Char.isWhitespace
  (!spaces.isEmpty && charsHavePreCI "at".toList (cs.drop spaces.length))
    || (!spaces.isEmpty && charsHavePreCI "every".toList (cs.drop spaces.length))
    || cs.isEmpty

/-- The lazy group `(.+?)` followed by group two: consume at least one
non-line-terminator character, extending minimally until group two
matches the remainder. -/
def matchBodyFrom : List Char → Option (List Char)
  | [] => none
  | c :: rest =>
    if isLineTerm c then none
    else if groupTwoAt rest then some [c]
    else (matchBodyFrom rest).map (fun body => c :: body)

/-- One attempt of `/to (.+?)(\s+at|\s+every|$)/i` at the start of `cs`,
returning group one. -/
def matchToAt (cs : List Char) : Option (List Char) :=
  if charsHavePreCI "to ".toList cs then matchBodyFrom (cs.drop 3) else none

/-- Leftmost match: try every start position in order. -/
def findToMatch : List Char → Option (List Char)
  | [] => none
  | c :: cs =>
    match matchToAt (c :: cs) with
    | some b => some b
    | none => findToMatch cs

/-- `extractReminderMessage` from the generator source: group one of the
first match of `/to (.+?)(\s+at|\s+every|$)/i`, trimmed, else the default. -/
def extractReminderMessage (input : String) : String :=
  match findToMatch input.toList with
  | some body => trimStr (String.mk body)
  | none => "Complete your task"

/-- `detectFramework` from the generator source. -/
def detectFramework (input : String) : String :=
  if strIncludes input "react" then "React"
  else if strIncludes input "vue" then "Vue"
  else if strIncludes input "angular" then "Angular"
  else if strIncludes input "next" then "Next.js"
  else if strIncludes input "svelte" then "Svelte"
  else "React"

/-- `detectPackages` from the generator source (the sequence of
conditional pushes, then the placeholder fallback). -/
def detectPackages (input : String) : List String :=
  let packages : List String :=
    (if strIncludes input "typescript" || strIncludes input "ts" then ["typescript"] else [])
    ++ (if strIncludes input "eslint" then ["eslint"] else [])
    ++ (if strIncludes input "prettier" then ["prettier"] else [])
    ++ (if strIncludes input "tailwind" then ["tailwindcss"] else [])
    ++ (if strIncludes input "jest" then ["jest"] else [])
    ++ (if strIncludes input "vitest" then ["vitest"] else [])
  if packages.length > 0 then packages else ["standard-dependencies"]

/-- `detectChannel` from the generator source. -/
def detectChannel (input : String) : String :=
  if strIncludes input "email" then "email"
  else if strIncludes input "sms" || strIncludes input "text" then "sms"
  else if strIncludes input "slack" then "slack"
  else if strIncludes input "push" then "push"
  else "email"

/-- The fixed verb vocabulary of `extractActions`. -/
def actionWords : List String :=
  ["create", "send", "check", "update", "delete", "notify",
   "process", "validate", "transform", "save", "load", "execute"]

/-- `extractActions` from the generator source: the verbs present in the
input, in vocabulary order, with the `['process']` fallback. -/
def extractActions (input : String) : List String :=
  let found := actionWords.filter (fun wd => strIncludes input wd)
  if found.length > 0 then found else ["process"]

/-- The vocabulary verbs occurring in the input, in vocabulary order
(the `found` list inside `extractActions`, before its fallback). -/
def foundVerbs (input : String) : List String :=
  actionWords.filter (fun wd => strIncludes input wd)

/-- `capitalizeFirst` from the generator source. -/
def capitalizeFirst (str : String) : String :=
  match str.toList with
  | [] => ""
  | c :: rest => String.mk (c.toUpper :: rest)

/-- `createEmptyWorkflow` from the generator source. -/
def createEmptyWorkflow (userInput wfId now : String) : Workflow :=
  { id := wfId
    name := "New Workflow"
    description := ""
    domain := .general
    trigger := { type := .manual, description := "Run manually" }
    steps := []
    metadata :=
      { createdAt := now
        userInput := userInput
        agentReasoning := "Waiting for more details from user" } }

/-- `generateReminderWorkflow` from the generator source. -/
def generateReminderWorkflow (userInput input wfId now : String) : Workflow :=
  let timeMatch := reminderTimeMatch input
  let frequency := if strIncludes input "every" then "recurring" else "once"
  let step1 : WorkflowStep :=
    { id := "step-1"
      type := .condition
      title := "Check Schedule Time"
      description := "Monitor for the scheduled time: " ++ timeMatch.getD "specified time"
      reasoning := "This step continuously checks if the current time matches the desired reminder schedule"
      config :=
        { frequency := some frequency
          time := some (timeMatch.getD "9:00 AM")
          timezone := some "local" } }
  let step2 : WorkflowStep :=
    { id := "step-2"
      type := .notification
      title := "Send Reminder"
      description := "Deliver the notification to the user"
      reasoning := "When the scheduled time arrives, this step sends the actual reminder notification"
      config :=
        { message := some (extractReminderMessage input)
          channels := some ["push", "email"] }
      dependencies := some ["step-1"] }
  let step3 : WorkflowStep :=
    { id := "step-3"
      type := .action
      title := "Log Event"
      description := "Record that the reminder was sent"
      reasoning := "Keeping a log helps track reminder history and debug issues"
      config :=
        { action := some "log"
          details := some "Reminder sent successfully" }
      dependencies := some ["step-2"] }
  let scheduleTime := timeMatch.getD "9:00 AM"
  { id := wfId
    name := "Reminder Workflow"
    description :=
      (if frequency = "recurring" then "Recurring" else "One-time") ++ " reminder notification"
    domain := .reminders
    trigger :=
      { type := .schedule
        description :=
          (if frequency = "recurring" then "Every day" else "Once") ++ " at " ++ scheduleTime
        config := some
          { schedule := some scheduleTime
            cron := if frequency = "recurring" then some ("0 " ++ scheduleTime) else none } }
    steps := [step1, step2, step3]
    metadata :=
      { createdAt := now
        userInput := userInput
        agentReasoning :=
          "I detected this is a reminder workflow with " ++ frequency
            ++ " execution. The workflow monitors for the scheduled time, sends a notification, and logs the event for tracking." } }

/-- `generateAppSetupWorkflow` from the generator source. -/
def generateAppSetupWorkflow (userInput input wfId now : String) : Workflow :=
  let framework := detectFramework input
  let step1 : WorkflowStep :=
    { id := "step-1"
      type := .action
      title := "Initialize Project"
      description := "Create new " ++ framework ++ " project with configuration"
      reasoning := "Starting with project initialization ensures we have the correct directory structure and dependencies"
      config :=
        { command := some ("create-" ++ framework ++ "-app")
          framework := some framework } }
  let step2 : WorkflowStep :=
    { id := "step-2"
      type := .action
      title := "Install Dependencies"
      description := "Install required packages and tools"
      reasoning := "Dependencies must be installed before we can configure or run the project"
      config := { packages := some (detectPackages input) }
      dependencies := some ["step-1"] }
  let testSteps : List WorkflowStep :=
    if strIncludes input "test" || strIncludes input "jest" || strIncludes input "vitest" then
      [{ id := "step-3"
         type := .action
         title := "Configure Testing"
         description := "Set up testing framework and sample tests"
         reasoning := "Testing infrastructure is essential for maintainable code"
         config :=
           { testFramework := some (if strIncludes input "vitest" then "vitest" else "jest") }
         dependencies := some ["step-2"] }]
    else []
  let step4 : WorkflowStep :=
    { id := "step-4"
      type := .action
      title := "Start Development Server"
      description := "Launch the application in development mode"
      reasoning := "Starting the dev server allows immediate verification that setup was successful"
      config :=
        { command := some "npm run dev"
          port := some 3000 }
      dependencies := some ["step-2"] }
  { id := wfId
    name := framework ++ " Project Setup"
    description := "Initialize and configure a new " ++ framework ++ " project"
    domain := .appSetup
    trigger := { type := .manual, description := "Run now" }
    steps := [step1, step2] ++ testSteps ++ [step4]
    metadata :=
      { createdAt := now
        userInput := userInput
        agentReasoning :=
          "This is a project setup workflow for " ++ framework
            ++ ". I\x27ve broken it down into logical steps: initialize, install dependencies, configure testing (if requested), and start the dev server. Each step depends on the previous one completing successfully." } }

/-- `generateNotificationWorkflow` from the generator source. -/
def generateNotificationWorkflow (userInput input wfId now : String) : Workflow :=
  let step1 : WorkflowStep :=
    { id := "step-1"
      type := .condition
      title := "Validate Recipient Info"
      description := "Check that required recipient information is available"
      reasoning := "We must validate inputs before attempting to send to prevent errors"
      config := { required := some ["recipient", "message"] } }
  let step2 : WorkflowStep :=
    { id := "step-2"
      type := .action
      title := "Prepare Message"
      description := "Format and prepare the notification content"
      reasoning := "Message preparation ensures consistent formatting and includes all necessary information"
      config :=
        { template := some "standard"
          includeTimestamp := some true }
      dependencies := some ["step-1"] }
  let step3 : WorkflowStep :=
    { id := "step-3"
      type := .notification
      title := "Send Notification"
      description := "Send via " ++ detectChannel input
      reasoning := "This is the main action that delivers the notification to the recipient"
      config :=
        { channel := some (detectChannel input)
          priority := some
            (if strIncludes input "urgent" || strIncludes input "important" then "high"
             else "normal") }
      dependencies := some ["step-2"] }
  let step4 : WorkflowStep :=
    { id := "step-4"
      type := .action
      title := "Confirm Delivery"
      description := "Verify the notification was delivered successfully"
      reasoning := "Delivery confirmation helps track success rate and catch any issues"
      config :=
        { retryOnFailure := some true
          maxRetries := some 3 }
      dependencies := some ["step-3"] }
  let eventType : TriggerType :=
    if strIncludes input "when" || strIncludes input "signup" || strIncludes input "user" then
      .event
    else .manual
  let eventDesc := if eventType = .event then "Event: New user signup" else "Run now"
  { id := wfId
    name := "Notification Workflow"
    description := "Send and track notification delivery"
    domain := .automation
    trigger :=
      { type := eventType
        description := eventDesc
        config := if eventType = .event then some { event := some "user.signup" } else none }
    steps := [step1, step2, step3, step4]
    metadata :=
      { createdAt := now
        userInput := userInput
        agentReasoning :=
          "This workflow handles notification delivery with proper validation, formatting, sending, and delivery confirmation. Each step ensures reliability and provides feedback." } }

/-- One step of the general template's `forEach` body. -/
def generalStep (action : String) (index : Nat) : WorkflowStep :=
  { id := "step-" ++ toString (index + 1)
    type := .action
    title := capitalizeFirst action
    description := "Execute: " ++ action
    reasoning :=
      "This step performs the action \"" ++ action ++ "\" as specified in your workflow description"
    config := { action := some action }
    dependencies := if index > 0 then some ["step-" ++ toString index] else none }

/-- The general template's `actions.forEach` push loop. -/
def generalSteps : List String → Nat → List WorkflowStep
  | [], _ => []
  | a :: rest, index => generalStep a index :: generalSteps rest (index + 1)

/-- `generateGeneralWorkflow` from the generator source, including the
`steps.length === 0` fallback branch of the source (which is unreachable
because `extractActions` never returns an empty list). -/
def generateGeneralWorkflow (userInput input wfId now : String) : Workflow :=
  let actions := extractActions input
  let steps0 := generalSteps actions 0
  let steps :=
    if steps0.length = 0 then
      [{ id := "step-1"
         type := .action
         title := "Execute Workflow"
         description := userInput
         reasoning := "This is a general-purpose workflow step based on your description"
         config := {} }]
    else steps0
  { id := wfId
    name := "Custom Workflow"
    description := userInput
    domain := .general
    trigger := { type := .manual, description := "Run now" }
    steps := steps
    metadata :=
      { createdAt := now
        userInput := userInput
        agentReasoning :=
          "I\x27ve created a " ++ toString steps.length
            ++ "-step workflow based on your description. Each step executes sequentially. You can modify or add steps as needed." } }

/-- The fixed clarifying question of the too-vague guard. -/
def clarifyingQuestion : String :=
  "Could you provide more details about what you want to accomplish? For example: \"Send me a reminder every morning at 9am\" or \"Set up a new React project with testing\""

/-- `generateWorkflow` from the generator source: the too-vague guard,
then the ordered first-match domain classifier. -/
def generateWorkflow (userInput wfId now : String) : GeneratorResult :=
  let input := trimStr (toLowerStr userInput)
  if decide (input.length < 10) || !strIncludes input " " then
    { workflow := createEmptyWorkflow userInput wfId now
      clarificationNeeded := some true
      clarificationQuestion := some clarifyingQuestion }
  else if strIncludes input "remind" || strIncludes input "notification"
      || strIncludes input "alert" then
    { workflow := generateReminderWorkflow userInput input wfId now }
  else if strIncludes input "setup" || strIncludes input "create project"
      || strIncludes input "initialize" then
    { workflow := generateAppSetupWorkflow userInput input wfId now }
  else if strIncludes input "email" || strIncludes input "send"
      || strIncludes input "notify" then
    { workflow := generateNotificationWorkflow userInput input wfId now }
  else
    { workflow := generateGeneralWorkflow userInput input wfId now }

/-- One per-step log entry (`ExecutionLog` in `types/workflow`); timestamps
are successive clock ticks (each `new Date().toISOString()` call in the
source advances the tick). -/
structure ExecutionLog where
  stepId : String
  stepTitle : String
  status : LogStatus
  startTime : Option Nat := none
  endTime : Option Nat := none
  output : Option String := none
  error : Option String := none
deriving DecidableEq, Repr

/-- `WorkflowExecution` from `types/workflow`. -/
structure WorkflowExecution where
  workflowId : String
  executionId : String
  status : ExecStatus
  logs : List ExecutionLog
  startTime : Option Nat := none
  endTime : Option Nat := none
deriving DecidableEq, Repr

/-- What a progress snapshot's `logs` field refers to: a deep-copied
value (`JSON.parse(JSON.stringify(execution))` in the source) freezes the
log array, while a spread copy (`{ ...execution }`) shares the live log
array by reference. -/
inductive LogsView
  | frozen (logs : List ExecutionLog)
  | live
deriving DecidableEq, Repr

/-- The emission sites of progress snapshots in `executeWorkflow`. -/
inductive SnapSite
  | init
  | stepRunning
  | stepDone
  | final
deriving DecidableEq, Repr

/-- A progress snapshot handed to `onProgress`.  Scalar fields are copied
by value at emission by both copy styles; `logsView` records whether the
log array was deep-copied or shared; `emittedLogs` is the value of the
live log array at the emission instant (for stating value independence). -/
structure Snapshot where
  site : SnapSite
  workflowId : String
  executionId : String
  status : ExecStatus
  startTime : Option Nat
  endTime : Option Nat
  logsView : LogsView
  emittedLogs : List ExecutionLog
deriving DecidableEq, Repr

/-- The spread copy `{ ...execution }`: scalars by value, logs shared. -/
def shallowSnap (site : SnapSite) (e : WorkflowExecution) : Snapshot :=
  { site := site
    workflowId := e.workflowId
    executionId := e.executionId
    status := e.status
    startTime := e.startTime
    endTime := e.endTime
    logsView := .live
    emittedLogs := e.logs }

/-- The deep copy `JSON.parse(JSON.stringify(execution))`. -/
def deepSnap (site : SnapSite) (e : WorkflowExecution) : Snapshot :=
  { site := site
    workflowId := e.workflowId
    executionId := e.executionId
    status := e.status
    startTime := e.startTime
    endTime := e.endTime
    logsView := .frozen e.logs
    emittedLogs := e.logs }

/-- The log array a caller sees through a snapshot when the executor's
live log array currently holds `currentLogs`. -/
def observeLogs (currentLogs : List ExecutionLog) (s : Snapshot) : List ExecutionLog :=
  match s.logsView with
  | .frozen l => l
  | .live => currentLogs

/-- In-place update of one array slot (`execution.logs[logIndex].f = v`);
out-of-range indices leave the list unchanged (unreachable in the runs
below, where the index always exists). -/
def updateAt : List α → Nat → (α → α) → List α
  | [], _, _ => []
  | a :: as, 0, f => f a :: as
  | a :: as, n + 1, f => a :: updateAt as n f

/-- Result of `simulateStepExecution`. -/
structure SimResult where
  success : Bool
  output : Option String := none
  error : Option String := none
deriving DecidableEq, Repr

/-- JavaScript truthiness of an optional config string (`if (config.x)`):
absent and empty strings are falsy. -/
def truthyStr : Option String → Option String
  | some s => if s = "" then none else some s
  | none => none

/-- `simulateStepExecution` from the executor source.  The random draw
`Math.random() > 0.05` is the `success` argument, supplied by the caller
from the oracle. -/
def simulateStepExecution (success : Bool) (type : StepType) (title : String)
    (config : StepConfig) : SimResult :=
  if success = false then
    { success := false, error := some "Simulated execution error" }
  else
    let output :=
      match type with
      | .action =>
        let base := "✓ Action executed successfully: " ++ title
        match truthyStr config.command with
        | some cmd => base ++ "\nCommand: " ++ cmd
        | none => base
      | .condition => "✓ Condition evaluated: " ++ title ++ "\nResult: true"
      | .notification =>
        let base := "✓ Notification sent: " ++ title
        let base :=
          match truthyStr config.channel with
          | some ch => base ++ "\nChannel: " ++ ch
          | none => base
        (match truthyStr config.message with
         | some msg => base ++ "\nMessage: " ++ msg
         | none => base)
      | .delay => "✓ Delay completed: " ++ title
    let output :=
      match truthyStr config.frequency with
      | some f => output ++ "\nFrequency: " ++ f
      | none => output
    let output :=
      match truthyStr config.time with
      | some tm => output ++ "\nScheduled time: " ++ tm
      | none => output
    { success := true, output := some output }

/-- `step.dependencies.every(depId => ...)` from the executor source; a
missing dependency log entry counts as not completed. -/
def depsComplete (logs : List ExecutionLog) (deps : List String) : Bool :=
  deps.all fun depId =>
    match logs.find? (fun log => log.stepId == depId) with
    | some depLog => depLog.status == .completed
    | none => false

/-- The executor's state between loop iterations: the live execution
record, the number of random draws consumed, the clock tick, the halt
flag (`break` fired), plus two ghost histories: every value the log
array has held (`trace`), and every snapshot emitted (`snaps`). -/
structure RunState where
  exec : WorkflowExecution
  draws : Nat
  clock : Nat
  halted : Bool
  trace : List (List ExecutionLog)
  snaps : List Snapshot
deriving Repr

/-- The dependency gate of one loop iteration: `true` when the step has
no `dependencies` field or every declared dependency's log entry is
`completed`. -/
def stepGate (st : RunState) (step : WorkflowStep) : Bool :=
  match step.dependencies with
  | some deps => depsComplete st.exec.logs deps
  | none => true

/-- One iteration of the executor's `for` loop body for `step`. -/
def processStep (rnd : Nat → Bool) (st : RunState) (step : WorkflowStep) : RunState :=
  let logIndex := st.exec.logs.findIdx (fun log => log.stepId == step.id)
  if stepGate st step = false then
    let logs1 := updateAt st.exec.logs logIndex (fun e =>
      { e with status := .failed, error := some "Dependencies not met" })
    { st with exec := { st.exec with logs := logs1 }, trace := st.trace ++ [logs1] }
  else
    let logs1 := updateAt st.exec.logs logIndex (fun e =>
      { e with status := .running, startTime := some st.clock })
    let exec1 := { st.exec with logs := logs1 }
    let res := simulateStepExecution (rnd st.draws) step.type step.title step.config
    let logs2 := updateAt logs1 logIndex (fun e =>
      { e with status := if res.success then .completed else .failed
               endTime := some (st.clock + 1)
               output := res.output
               error := res.error })
    let exec2 := { exec1 with logs := logs2 }
    let st2 : RunState :=
      { exec := exec2
        draws := st.draws + 1
        clock := st.clock + 2
        halted := st.halted
        trace := (st.trace ++ [logs1]) ++ [logs2]
        snaps := (st.snaps ++ [deepSnap .stepRunning exec1]) ++ [deepSnap .stepDone exec2] }
    if res.success = false ∧ step.type ≠ .condition then
      { st2 with exec := { exec2 with status := .failed }, halted := true }
    else st2

/-- One loop iteration including the `break` behavior: once halted, the
remaining steps are not processed. -/
def execStepFold (rnd : Nat → Bool) (st : RunState) (step : WorkflowStep) : RunState :=
  if st.halted then st else processStep rnd st step

/-- The executor's `for (const step of workflow.steps)` loop. -/
def runSteps (rnd : Nat → Bool) (steps : List WorkflowStep) (st : RunState) : RunState :=
  List.foldl (execStepFold rnd) st steps

/-- The log entries initialized for all steps before the loop. -/
def initLogs (steps : List WorkflowStep) : List ExecutionLog :=
  steps.map fun step => { stepId := step.id, stepTitle := step.title, status := .pending }

/-- The executor's state just before the loop, after initializing the
logs and emitting the first (spread-copied) snapshot. -/
def initState (w : Workflow) (execId : String) : RunState :=
  let exec0 : WorkflowExecution :=
    { workflowId := w.id
      executionId := execId
      status := .running
      logs := initLogs w.steps
      startTime := some 0 }
  { exec := exec0
    draws := 0
    clock := 1
    halted := false
    trace := [exec0.logs]
    snaps := [shallowSnap .init exec0] }

/-- The executor's observable result: the returned execution record plus
the ghost histories. -/
structure RunResult where
  exec : WorkflowExecution
  trace : List (List ExecutionLog)
  snaps : List Snapshot
  draws : Nat
deriving Repr

/-- `executeWorkflow` from the executor source.  `execId` stands for the
generated `exec-${Date.now()}` identifier and `rnd` for the sequence of
`Math.random() > 0.05` outcomes, indexed by draw count. -/
def executeWorkflow (w : Workflow) (execId : String) (rnd : Nat → Bool) : RunResult :=
  let st1 := runSteps rnd w.steps (initState w execId)
  let finalStatus := if st1.exec.status = .running then ExecStatus.completed else st1.exec.status
  let exec2 := { st1.exec with status := finalStatus, endTime := some st1.clock }
  { exec := exec2
    trace := st1.trace
    snaps := st1.snaps ++ [shallowSnap .final exec2]
    draws := st1.draws }

/-- The state after the first `t` loop iterations of a run. -/
def runUpTo (w : Workflow) (execId : String) (rnd : Nat → Bool) (t : Nat) : RunState :=
  runSteps rnd (w.steps.take t) (initState w execId)

/-- What happens to a given step when the loop reaches it: skipped
because the run already halted, failed on the dependency gate, or
actually run with the given simulated outcome. -/
inductive StepEvent
  | skipped
  | depFailed
  | ran (success : Bool)
deriving DecidableEq, Repr

/-- Classify the loop iteration for `step` from the state it is reached in. -/
def stepEvent (rnd : Nat → Bool) (st : RunState) (step : WorkflowStep) : StepEvent :=
  if st.halted then .skipped
  else if stepGate st step = false then .depFailed
  else .ran (rnd st.draws)

/-- Invariant: the live log array and every recorded log-array value list
exactly the given step ids, in order. -/
def LogsInv (ids : List String) (st : RunState) : Prop :=
  st.exec.logs.map (fun e => e.stepId) = ids ∧
  ∀ L ∈ st.trace, L.map (fun e => e.stepId) = ids

/-- Invariant: position `j` of the live log array, and of every recorded
log-array value, is still `pending`. -/
def PendingAt (j : Nat) (st : RunState) : Prop :=
  (∀ e, st.exec.logs[j]? = some e → e.status = .pending) ∧
  ∀ L ∈ st.trace, ∀ e, L[j]? = some e → e.status = .pending

/-- Invariant tying the halt flag to the overall status during the loop. -/
def StatusInv (st : RunState) : Prop :=
  (st.halted = true → st.exec.status = .failed) ∧
  (st.halted = false → st.exec.status = .running)

/-- Invariant: every snapshot emitted so far comes from a non-final site,
and the per-step ones carry a frozen (deep-copied) log array. -/
def SnapInv (st : RunState) : Prop :=
  ∀ s ∈ st.snaps, s.site ≠ .final ∧
    ((s.site = .stepRunning ∨ s.site = .stepDone) → s.logsView = .frozen s.emittedLogs)

/-- A minimal step for concrete runs. -/
def cxStep (i : String) (ty : StepType) (deps : Option (List String)) : WorkflowStep :=
  { id := i, type := ty, title := "Step " ++ i, description := "d", reasoning := "r",
    config := {}, dependencies := deps }

/-- A minimal workflow around the given steps. -/
def cxWorkflow (steps : List WorkflowStep) : Workflow :=
  { id := "wf-cx", name := "n", description := "d", domain := .general,
    trigger := { type := .manual, description := "Run now" }, steps := steps,
    metadata := { createdAt := "t0", userInput := "u", agentReasoning := "a" } }

/-- Oracle: every simulated step succeeds. -/
def rndTrue : Nat → Bool := fun _ => true

/-- Oracle: every simulated step fails. -/
def rndFalse : Nat → Bool := fun _ => false

/-- A non-`condition` step whose dependency can never be met, followed by
an independent step. -/
def depFailWorkflow : Workflow :=
  cxWorkflow [cxStep "s1" .action (some ["nope"]), cxStep "s2" .action none]

/-- A single `action` step. -/
def oneActionWorkflow : Workflow := cxWorkflow [cxStep "s1" .action none]

/-- A single `condition` step. -/
def oneConditionWorkflow : Workflow := cxWorkflow [cxStep "s1" .condition none]

/-- Two independent `action` steps. -/
def twoActionWorkflow : Workflow :=
  cxWorkflow [cxStep "s1" .action none, cxStep "s2" .action none]

/-- Placeholder log entry for positional lookups in concrete statements. -/
def dummyLog : ExecutionLog := { stepId := "", stepTitle := "", status := .pending }

/-- Placeholder step for positional lookups in concrete statements. -/
def dummyStep : WorkflowStep := cxStep "" .action none

/-- Placeholder snapshot for positional lookups in concrete statements. -/
def dummySnap : Snapshot :=
  shallowSnap .init { workflowId := "", executionId := "", status := .idle, logs := [] }

theorem updateAt_length (l : List α) (i : Nat) (f : α → α) :
    (updateAt l i f).length = l.length := by
  induction l generalizing i with
  | nil => rfl
  | cons a as ih =>
    cases i with
    | zero => rfl
    | succ n => simp [updateAt, ih]

theorem updateAt_map (l : List α) (i : Nat) (f : α → α) (g : α → β)
    (h : ∀ a, g (f a) = g a) : (updateAt l i f).map g = l.map g := by
  induction l generalizing i with
  | nil => rfl
  | cons a as ih =>
    cases i with
    | zero => simp [updateAt, h]
    | succ n => simp [updateAt, ih]

theorem updateAt_getElem?_ne (l : List α) (i j : Nat) (f : α → α) (h : i ≠ j) :
    (updateAt l i f)[j]? = l[j]? := by
  induction l generalizing i j with
  | nil => rfl
  | cons a as ih =>
    cases i with
    | zero =>
      cases j with
      | zero => exact absurd rfl h
      | succ m => simp [updateAt]
    | succ n =>
      cases j with
      | zero => simp [updateAt]
      | succ m =>
        simp only [updateAt, List.getElem?_cons_succ]
        exact ih n m (by omega)

theorem updateAt_getElem?_self (l : List α) (i : Nat) (f : α → α) :
    (updateAt l i f)[i]? = l[i]?.map f := by
  induction l generalizing i with
  | nil => rfl
  | cons a as ih =>
    cases i with
    | zero => simp [updateAt]
    | succ n => simpa [updateAt] using ih n

theorem simulate_success (b : Bool) (ty : StepType) (ti : String) (c : StepConfig) :
    (simulateStepExecution b ty ti c).success = b := by
  cases b <;> simp [simulateStepExecution]

theorem findIdx_stepId_le (logs : List ExecutionLog) (ids : List String)
    (h : logs.map (fun e => e.stepId) = ids) :
    ∀ k tid, ids[k]? = some tid →
      logs.findIdx (fun e => e.stepId == tid) ≤ k := by
  induction logs generalizing ids with
  | nil =>
    intro k tid hk
    subst h
    simp at hk
  | cons a as ih =>
    intro k tid hk
    subst h
    rw [List.findIdx_cons]
    by_cases ha : a.stepId == tid
    · simp [ha]
    · simp only [ha, cond_false]
      cases k with
      | zero =>
        simp at hk
        exact absurd (by simp [hk]) ha
      | succ m =>
        simp only [List.map_cons, List.getElem?_cons_succ] at hk
        have := ih (as.map (fun e => e.stepId)) rfl m tid hk
        omega


theorem stepIds_updateAt {l : List ExecutionLog} {i : Nat} {f : ExecutionLog → ExecutionLog}
    {ids : List String} (hf : ∀ e, (f e).stepId = e.stepId)
    (h : l.map (fun e => e.stepId) = ids) :
    (updateAt l i f).map (fun e => e.stepId) = ids := by
  rw [updateAt_map l i f _ hf, h]

theorem processStep_depFail (rnd : Nat → Bool) (st : RunState) (step : WorkflowStep)
    (hg : stepGate st step = false) :
    (processStep rnd st step).exec.logs =
        updateAt st.exec.logs (st.exec.logs.findIdx (fun e => e.stepId == step.id))
          (fun e => { e with status := .failed, error := some "Dependencies not met" })
      ∧ (processStep rnd st step).trace =
        st.trace ++ [updateAt st.exec.logs (st.exec.logs.findIdx (fun e => e.stepId == step.id))
          (fun e => { e with status := .failed, error := some "Dependencies not met" })]
      ∧ (processStep rnd st step).draws = st.draws
      ∧ (processStep rnd st step).halted = st.halted
      ∧ (processStep rnd st step).exec.status = st.exec.status
      ∧ (processStep rnd st step).snaps = st.snaps
      ∧ (processStep rnd st step).clock = st.clock := by
  simp [processStep, hg]

theorem logsInv_processStep {ids : List String} {st : RunState} (rnd : Nat → Bool)
    (step : WorkflowStep) (h : LogsInv ids st) : LogsInv ids (processStep rnd st step) := by
  obtain ⟨h1, h2⟩ := h
  simp only [LogsInv, processStep]
  split
  · refine ⟨stepIds_updateAt (fun e => rfl) h1, ?_⟩
    intro L hL
    rcases List.mem_append.mp hL with hL | hL
    · exact h2 L hL
    · simp only [List.mem_singleton] at hL
      subst hL
      exact stepIds_updateAt (fun e => rfl) h1
  · split
    all_goals
      refine ⟨stepIds_updateAt (fun e => rfl) (stepIds_updateAt (fun e => rfl) h1), ?_⟩
      intro L hL
      rcases List.mem_append.mp hL with hL | hL
      · rcases List.mem_append.mp hL with hL | hL
        · exact h2 L hL
        · simp only [List.mem_singleton] at hL
          subst hL
          exact stepIds_updateAt (fun e => rfl) h1
      · simp only [List.mem_singleton] at hL
        subst hL
        exact stepIds_updateAt (fun e => rfl) (stepIds_updateAt (fun e => rfl) h1)

theorem pendingAt_updateAt {l : List ExecutionLog} {i j : Nat} {f : ExecutionLog → ExecutionLog}
    (hij : i ≠ j) (h : ∀ e, l[j]? = some e → e.status = .pending) :
    ∀ e, (updateAt l i f)[j]? = some e → e.status = .pending := by
  intro e he
  rw [updateAt_getElem?_ne l i j f hij] at he
  exact h e he

theorem pendingAt_processStep {j : Nat} {st : RunState} (rnd : Nat → Bool)
    (step : WorkflowStep)
    (hidx : st.exec.logs.findIdx (fun e => e.stepId == step.id) ≠ j)
    (h : PendingAt j st) : PendingAt j (processStep rnd st step) := by
  obtain ⟨h1, h2⟩ := h
  simp only [PendingAt, processStep]
  split
  · refine ⟨pendingAt_updateAt hidx h1, ?_⟩
    intro L hL
    rcases List.mem_append.mp hL with hL | hL
    · exact h2 L hL
    · simp only [List.mem_singleton] at hL
      subst hL
      exact pendingAt_updateAt hidx h1
  · split
    all_goals
      refine ⟨pendingAt_updateAt hidx (pendingAt_updateAt hidx h1), ?_⟩
      intro L hL
      rcases List.mem_append.mp hL with hL | hL
      · rcases List.mem_append.mp hL with hL | hL
        · exact h2 L hL
        · simp only [List.mem_singleton] at hL
          subst hL
          exact pendingAt_updateAt hidx h1
      · simp only [List.mem_singleton] at hL
        subst hL
        exact pendingAt_updateAt hidx (pendingAt_updateAt hidx h1)

theorem statusInv_processStep {st : RunState} (rnd : Nat → Bool) (step : WorkflowStep)
    (h : StatusInv st) : StatusInv (processStep rnd st step) := by
  obtain ⟨h1, h2⟩ := h
  simp only [StatusInv, processStep]
  split
  · exact ⟨h1, h2⟩
  · split
    · exact ⟨fun _ => rfl, fun hf => by simp at hf⟩
    · exact ⟨h1, h2⟩

theorem snapInv_processStep {st : RunState} (rnd : Nat → Bool) (step : WorkflowStep)
    (h : SnapInv st) : SnapInv (processStep rnd st step) := by
  simp only [SnapInv, processStep]
  split
  · exact h
  · split
    all_goals
      intro s hs
      rcases List.mem_append.mp hs with hs | hs
      · rcases List.mem_append.mp hs with hs | hs
        · exact h s hs
        · simp only [List.mem_singleton] at hs
          subst hs
          exact ⟨by simp [deepSnap], fun _ => rfl⟩
      · simp only [List.mem_singleton] at hs
        subst hs
        exact ⟨by simp [deepSnap], fun _ => rfl⟩

theorem processStep_halted_run (rnd : Nat → Bool) (st : RunState) (step : WorkflowStep)
    (hg : stepGate st step = true) :
    (processStep rnd st step).halted = true ↔
      (st.halted = true ∨ (rnd st.draws = false ∧ step.type ≠ .condition)) := by
  simp only [processStep, hg]
  rw [if_neg (by simp)]
  rw [simulate_success]
  split
  · simp_all
  · simp_all

theorem runSteps_nil (rnd : Nat → Bool) (st : RunState) : runSteps rnd [] st = st := rfl

theorem runSteps_cons (rnd : Nat → Bool) (step : WorkflowStep) (steps : List WorkflowStep)
    (st : RunState) :
    runSteps rnd (step :: steps) st = runSteps rnd steps (execStepFold rnd st step) := rfl

theorem runSteps_halted_fix (rnd : Nat → Bool) (steps : List WorkflowStep) (st : RunState)
    (h : st.halted = true) : runSteps rnd steps st = st := by
  induction steps with
  | nil => rfl
  | cons a as ih =>
    rw [runSteps_cons]
    have : execStepFold rnd st a = st := by simp [execStepFold, h]
    rw [this]
    exact ih

theorem logsInv_execStepFold {ids : List String} {st : RunState} (rnd : Nat → Bool)
    (step : WorkflowStep) (h : LogsInv ids st) : LogsInv ids (execStepFold rnd st step) := by
  unfold execStepFold
  split
  · exact h
  · exact logsInv_processStep rnd step h

theorem logsInv_runSteps {ids : List String} (rnd : Nat → Bool)
    (steps : List WorkflowStep) (st : RunState) (h : LogsInv ids st) :
    LogsInv ids (runSteps rnd steps st) := by
  induction steps generalizing st with
  | nil => exact h
  | cons a as ih =>
    rw [runSteps_cons]
    exact ih _ (logsInv_execStepFold rnd a h)

theorem statusInv_execStepFold {st : RunState} (rnd : Nat → Bool) (step : WorkflowStep)
    (h : StatusInv st) : StatusInv (execStepFold rnd st step) := by
  unfold execStepFold
  split
  · exact h
  · exact statusInv_processStep rnd step h

theorem statusInv_runSteps (rnd : Nat → Bool) (steps : List WorkflowStep) (st : RunState)
    (h : StatusInv st) : StatusInv (runSteps rnd steps st) := by
  induction steps generalizing st with
  | nil => exact h
  | cons a as ih =>
    rw [runSteps_cons]
    exact ih _ (statusInv_execStepFold rnd a h)

theorem snapInv_execStepFold {st : RunState} (rnd : Nat → Bool) (step : WorkflowStep)
    (h : SnapInv st) : SnapInv (execStepFold rnd st step) := by
  unfold execStepFold
  split
  · exact h
  · exact snapInv_processStep rnd step h

theorem snapInv_runSteps (rnd : Nat → Bool) (steps : List WorkflowStep) (st : RunState)
    (h : SnapInv st) : SnapInv (runSteps rnd steps st) := by
  induction steps generalizing st with
  | nil => exact h
  | cons a as ih =>
    rw [runSteps_cons]
    exact ih _ (snapInv_execStepFold rnd a h)

theorem logsInv_initState (w : Workflow) (execId : String) :
    LogsInv (w.steps.map (fun s => s.id)) (initState w execId) := by
  constructor
  · simp [initState, initLogs]
  · intro L hL
    simp only [initState, List.mem_singleton] at hL
    subst hL
    simp [initLogs]

theorem statusInv_initState (w : Workflow) (execId : String) :
    StatusInv (initState w execId) :=
  ⟨fun h => by simp [initState] at h, fun _ => rfl⟩

theorem snapInv_initState (w : Workflow) (execId : String) :
    SnapInv (initState w execId) := by
  intro s hs
  simp only [initState, List.mem_singleton] at hs
  subst hs
  refine ⟨by simp [shallowSnap], ?_⟩
  intro hsite
  rcases hsite with hsite | hsite <;> simp [shallowSnap] at hsite

theorem pendingAt_initState (w : Workflow) (execId : String) (j : Nat) :
    PendingAt j (initState w execId) := by
  constructor
  · intro e he
    simp only [initState, initLogs, List.getElem?_map, Option.map_eq_some'] at he
    obtain ⟨a, -, ha⟩ := he
    rw [← ha]
  · intro L hL e he
    simp only [initState, List.mem_singleton] at hL
    subst hL
    simp only [initLogs, List.getElem?_map, Option.map_eq_some'] at he
    obtain ⟨a, -, ha⟩ := he
    rw [← ha]

theorem runUpTo_zero (w : Workflow) (execId : String) (rnd : Nat → Bool) :
    runUpTo w execId rnd 0 = initState w execId := rfl

theorem runUpTo_succ (w : Workflow) (execId : String) (rnd : Nat → Bool) (t : Nat)
    (h : t < w.steps.length) :
    runUpTo w execId rnd (t + 1) =
      execStepFold rnd (runUpTo w execId rnd t) (w.steps.get ⟨t, h⟩) := by
  unfold runUpTo runSteps
  rw [List.take_succ, List.foldl_append]
  have : w.steps[t]? = some (w.steps.get ⟨t, h⟩) := by
    rw [List.getElem?_eq_getElem h]
    rfl
  rw [this]
  rfl

theorem runUpTo_clamp (w : Workflow) (execId : String) (rnd : Nat → Bool) (t : Nat)
    (h : w.steps.length ≤ t) :
    runUpTo w execId rnd t = runUpTo w execId rnd w.steps.length := by
  unfold runUpTo
  rw [List.take_of_length_le h, List.take_length]

theorem runSteps_full (w : Workflow) (execId : String) (rnd : Nat → Bool) :
    runSteps rnd w.steps (initState w execId) = runUpTo w execId rnd w.steps.length := by
  unfold runUpTo
  rw [List.take_length]

theorem runSteps_split (w : Workflow) (execId : String) (rnd : Nat → Bool) (t : Nat) :
    runSteps rnd w.steps (initState w execId) =
      runSteps rnd (w.steps.drop t) (runUpTo w execId rnd t) := by
  unfold runUpTo runSteps
  rw [← List.foldl_append, List.take_append_drop]

theorem pendingAt_runUpTo (w : Workflow) (execId : String) (rnd : Nat → Bool) (j : Nat) :
    ∀ m, m ≤ j → PendingAt j (runUpTo w execId rnd m) := by
  intro m
  induction m with
  | zero => exact fun _ => pendingAt_initState w execId j
  | succ t ih =>
    intro hmj
    by_cases ht : t < w.steps.length
    · rw [runUpTo_succ w execId rnd t ht]
      unfold execStepFold
      split
      · exact ih (by omega)
      · have hids : (runUpTo w execId rnd t).exec.logs.map (fun e => e.stepId) =
            w.steps.map (fun s => s.id) :=
          (logsInv_runSteps rnd (w.steps.take t) _ (logsInv_initState w execId)).1
        have hk : (w.steps.map (fun s => s.id))[t]? = some (w.steps.get ⟨t, ht⟩).id := by
          rw [List.getElem?_map, List.getElem?_eq_getElem ht]
          rfl
        have hle := findIdx_stepId_le _ _ hids t (w.steps.get ⟨t, ht⟩).id hk
        have hne : (runUpTo w execId rnd t).exec.logs.findIdx
            (fun e => e.stepId == (w.steps.get ⟨t, ht⟩).id) ≠ j := by omega
        exact pendingAt_processStep rnd (w.steps.get ⟨t, ht⟩) hne (ih (by omega))
    · rw [runUpTo_clamp w execId rnd (t + 1) (by omega),
        ← runUpTo_clamp w execId rnd t (by omega)]
      exact ih (by omega)

theorem halted_iff (w : Workflow) (execId : String) (rnd : Nat → Bool) :
    ∀ m, ((runUpTo w execId rnd m).halted = true ↔
      ∃ i, ∃ hi : i < w.steps.length, i < m ∧
        stepEvent rnd (runUpTo w execId rnd i) (w.steps.get ⟨i, hi⟩) = .ran false ∧
        (w.steps.get ⟨i, hi⟩).type ≠ .condition) := by
  intro m
  induction m with
  | zero =>
    constructor
    · intro h
      simp [runUpTo_zero, initState] at h
    · rintro ⟨i, hi, him, -, -⟩
      omega
  | succ t ih =>
    by_cases ht : t < w.steps.length
    · rw [runUpTo_succ w execId rnd t ht]
      by_cases hh : (runUpTo w execId rnd t).halted = true
      · rw [show execStepFold rnd (runUpTo w execId rnd t) (w.steps.get ⟨t, ht⟩) =
            runUpTo w execId rnd t by simp [execStepFold, hh]]
        constructor
        · intro _
          obtain ⟨i, hi, him, hev, hc⟩ := ih.mp hh
          exact ⟨i, hi, by omega, hev, hc⟩
        · intro _
          exact hh
      · unfold execStepFold
        rw [if_neg hh]
        by_cases hg : stepGate (runUpTo w execId rnd t) (w.steps.get ⟨t, ht⟩) = false
        · rw [(processStep_depFail rnd _ _ hg).2.2.2.1]
          constructor
          · intro hx
            exact absurd hx hh
          · rintro ⟨i, hi, him, hev, hc⟩
            rcases Nat.lt_succ_iff_lt_or_eq.mp him with him | him
            · exact absurd (ih.mpr ⟨i, hi, him, hev, hc⟩) hh
            · subst him
              unfold stepEvent at hev
              rw [if_neg hh, if_pos hg] at hev
              cases hev
        · have hg' : stepGate (runUpTo w execId rnd t) (w.steps.get ⟨t, ht⟩) = true := by
            cases h : stepGate (runUpTo w execId rnd t) (w.steps.get ⟨t, ht⟩)
            · exact absurd h hg
            · rfl
          rw [processStep_halted_run rnd _ _ hg']
          constructor
          · intro hor
            rcases hor with hor | hor
            · exact absurd hor hh
            · refine ⟨t, ht, by omega, ?_, hor.2⟩
              unfold stepEvent
              rw [if_neg hh, if_neg hg, hor.1]
          · rintro ⟨i, hi, him, hev, hc⟩
            rcases Nat.lt_succ_iff_lt_or_eq.mp him with him | him
            · exact absurd (ih.mpr ⟨i, hi, him, hev, hc⟩) hh
            · subst him
              unfold stepEvent at hev
              rw [if_neg hh, if_neg hg] at hev
              right
              refine ⟨?_, hc⟩
              injection hev
    · rw [runUpTo_clamp w execId rnd (t + 1) (by omega),
        ← runUpTo_clamp w execId rnd t (by omega), ih]
      constructor
      · rintro ⟨i, hi, him, hev, hc⟩
        exact ⟨i, hi, by omega, hev, hc⟩
      · rintro ⟨i, hi, him, hev, hc⟩
        exact ⟨i, hi, by omega, hev, hc⟩

theorem executeWorkflow_status (w : Workflow) (execId : String) (rnd : Nat → Bool) :
    ((executeWorkflow w execId rnd).exec.status = .failed ↔
      (runSteps rnd w.steps (initState w execId)).halted = true) ∧
    ((executeWorkflow w execId rnd).exec.status = .completed ∨
      (executeWorkflow w execId rnd).exec.status = .failed) := by
  have hsi : StatusInv (runSteps rnd w.steps (initState w execId)) :=
    statusInv_runSteps rnd w.steps _ (statusInv_initState w execId)
  simp only [executeWorkflow]
  cases hh : (runSteps rnd w.steps (initState w execId)).halted with
  | false =>
    have hr := hsi.2 hh
    rw [hr]
    simp
  | true =>
    have hf := hsi.1 hh
    rw [hf]
    simp

theorem run_halts_at (w : Workflow) (execId : String) (rnd : Nat → Bool) (i : Nat)
    (hi : i < w.steps.length)
    (hev : stepEvent rnd (runUpTo w execId rnd i) (w.steps.get ⟨i, hi⟩) = .ran false)
    (hc : (w.steps.get ⟨i, hi⟩).type ≠ .condition) :
    runSteps rnd w.steps (initState w execId) = runUpTo w execId rnd (i + 1) ∧
    (runUpTo w execId rnd (i + 1)).halted = true := by
  unfold stepEvent at hev
  by_cases hh : (runUpTo w execId rnd i).halted = true
  · rw [if_pos hh] at hev
    cases hev
  · rw [if_neg hh] at hev
    by_cases hg : stepGate (runUpTo w execId rnd i) (w.steps.get ⟨i, hi⟩) = false
    · rw [if_pos hg] at hev
      cases hev
    · rw [if_neg hg] at hev
      have hrnd : rnd (runUpTo w execId rnd i).draws = false := by injection hev
      have hg' : stepGate (runUpTo w execId rnd i) (w.steps.get ⟨i, hi⟩) = true := by
        cases h : stepGate (runUpTo w execId rnd i) (w.steps.get ⟨i, hi⟩)
        · exact absurd h hg
        · rfl
      have hhalt : (runUpTo w execId rnd (i + 1)).halted = true := by
        rw [runUpTo_succ w execId rnd i hi]
        unfold execStepFold
        rw [if_neg hh]
        exact (processStep_halted_run rnd _ _ hg').mpr (Or.inr ⟨hrnd, hc⟩)
      refine ⟨?_, hhalt⟩
      rw [runSteps_split w execId rnd (i + 1)]
      exact runSteps_halted_fix rnd _ _ hhalt

theorem findIdx_lt_of_runUpTo (w : Workflow) (execId : String) (rnd : Nat → Bool) (i : Nat)
    (hi : i < w.steps.length) :
    (runUpTo w execId rnd i).exec.logs.findIdx
        (fun e => e.stepId == (w.steps.get ⟨i, hi⟩).id) ≤ i ∧
    (runUpTo w execId rnd i).exec.logs.length = w.steps.length := by
  have hids : (runUpTo w execId rnd i).exec.logs.map (fun e => e.stepId) =
      w.steps.map (fun s => s.id) :=
    (logsInv_runSteps rnd (w.steps.take i) _ (logsInv_initState w execId)).1
  have hk : (w.steps.map (fun s => s.id))[i]? = some (w.steps.get ⟨i, hi⟩).id := by
    rw [List.getElem?_map, List.getElem?_eq_getElem hi]
    rfl
  refine ⟨findIdx_stepId_le _ _ hids i _ hk, ?_⟩
  have := congrArg List.length hids
  simpa using this

/-- C7: for every input whose trimmed lower-cased form has length at
least 10, contains a space, and contains "remind", the generator returns
domain `reminders` with exactly 3 steps chained step-1 ← step-2 ← step-3,
and every step has a non-empty reasoning. -/
theorem reminder_classification (userInput wfId now : String)
    (h1 : 10 ≤ (trimStr (toLowerStr userInput)).length)
    (h2 : strIncludes (trimStr (toLowerStr userInput)) " " = true)
    (h3 : strIncludes (trimStr (toLowerStr userInput)) "remind" = true) :
    (generateWorkflow userInput wfId now).workflow.domain = .reminders ∧
    (generateWorkflow userInput wfId now).workflow.steps.length = 3 ∧
    (generateWorkflow userInput wfId now).workflow.steps.map (fun s => s.id) =
      ["step-1", "step-2", "step-3"] ∧
    (generateWorkflow userInput wfId now).workflow.steps.map (fun s => s.dependencies) =
      [none, some ["step-1"], some ["step-2"]] ∧
    ∀ s ∈ (generateWorkflow userInput wfId now).workflow.steps, s.reasoning ≠ "" := by
  have hguard : (decide ((trimStr (toLowerStr userInput)).length < 10)
      || !strIncludes (trimStr (toLowerStr userInput)) " ") = false := by
    rw [h2]
    simp only [Bool.not_true, Bool.or_false, decide_eq_false_iff_not]
    omega
  have hkey : generateWorkflow userInput wfId now =
      { workflow := generateReminderWorkflow userInput (trimStr (toLowerStr userInput)) wfId now } := by
    simp only [generateWorkflow]
    rw [hguard, h3]
    simp
  rw [hkey]
  refine ⟨rfl, rfl, by simp [generateReminderWorkflow], by simp [generateReminderWorkflow], ?_⟩
  intro s hs
  simp only [generateReminderWorkflow, List.mem_cons, List.not_mem_nil, or_false] at hs
  rcases hs with hs | hs | hs <;> subst hs
  · show "This step continuously checks if the current time matches the desired reminder schedule" ≠ ""
    decide
  · show "When the scheduled time arrives, this step sends the actual reminder notification" ≠ ""
    decide
  · show "Keeping a log helps track reminder history and debug issues" ≠ ""
    decide

/-- Witness for C7 at the concrete input "send me a reminder". -/
theorem reminder_classification_witness :
    (10 ≤ (trimStr (toLowerStr "send me a reminder")).length ∧
      strIncludes (trimStr (toLowerStr "send me a reminder")) " " = true ∧
      strIncludes (trimStr (toLowerStr "send me a reminder")) "remind" = true) ∧
    (generateWorkflow "send me a reminder" "wf-1" "t0").workflow.domain = .reminders :=
  ⟨by decide,
    (reminder_classification "send me a reminder" "wf-1" "t0" (by decide) (by decide)
      (by decide)).1⟩

/-- C8: for every input whose trimmed lower-cased form is shorter than 10
characters or contains no space, the generator returns the clarification
result: `clarificationNeeded = true`, the fixed question, and an empty
workflow with domain `general`, a manual trigger, and the original text
in metadata; the guard precedes and short-circuits domain detection (the
conclusion holds regardless of any domain keywords in the input). -/
theorem vague_input_guard (userInput wfId now : String)
    (h : (trimStr (toLowerStr userInput)).length < 10 ∨
      strIncludes (trimStr (toLowerStr userInput)) " " = false) :
    (generateWorkflow userInput wfId now).clarificationNeeded = some true ∧
    (generateWorkflow userInput wfId now).clarificationQuestion = some clarifyingQuestion ∧
    (generateWorkflow userInput wfId now).workflow.steps = [] ∧
    (generateWorkflow userInput wfId now).workflow.domain = .general ∧
    (generateWorkflow userInput wfId now).workflow.trigger =
      { type := .manual, description := "Run manually" } ∧
    (generateWorkflow userInput wfId now).workflow.metadata.userInput = userInput := by
  have hguard : (decide ((trimStr (toLowerStr userInput)).length < 10)
      || !strIncludes (trimStr (toLowerStr userInput)) " ") = true := by
    rcases h with h | h
    · simp [h]
    · simp [h]
  simp only [generateWorkflow]
  rw [hguard]
  simp [createEmptyWorkflow]

/-- Witness for C8 at the concrete input "reminders": a single token that
contains the reminder keyword yet still takes the clarification path. -/
theorem vague_input_guard_witness :
    ((trimStr (toLowerStr "reminders")).length < 10 ∨
      strIncludes (trimStr (toLowerStr "reminders")) " " = false) ∧
    strIncludes (trimStr (toLowerStr "reminders")) "remind" = true ∧
    (generateWorkflow "reminders" "wf-1" "t0").clarificationNeeded = some true :=
  ⟨by decide, by decide,
    (vague_input_guard "reminders" "wf-1" "t0" (by decide)).1⟩

/-- C1 counterexample: the input "Send an email notification when a new
user signs up" contains "notification", which is in the reminder keyword
family checked first, so the generator returns domain `reminders` with a
schedule trigger — not domain `automation` with an event trigger as the
claim states. -/
theorem generate_email_signup_counterexample :
    (generateWorkflow "Send an email notification when a new user signs up" "wf-1" "t0").workflow.domain = .reminders ∧
    ¬ ((generateWorkflow "Send an email notification when a new user signs up" "wf-1" "t0").workflow.domain = .automation) ∧
    (generateWorkflow "Send an email notification when a new user signs up" "wf-1" "t0").workflow.trigger.type = .schedule ∧
    ¬ ((generateWorkflow "Send an email notification when a new user signs up" "wf-1" "t0").workflow.trigger.type = .event) := by
  decide

/-- C1 amended: that input is classified by the reminder branch: domain
`reminders`, trigger type `schedule` described "Once at 9:00 AM", three
steps, and no clarification. -/
theorem generate_email_signup_amended :
    (generateWorkflow "Send an email notification when a new user signs up" "wf-1" "t0").workflow.domain = .reminders ∧
    (generateWorkflow "Send an email notification when a new user signs up" "wf-1" "t0").workflow.trigger.type = .schedule ∧
    (generateWorkflow "Send an email notification when a new user signs up" "wf-1" "t0").workflow.trigger.description = "Once at 9:00 AM" ∧
    (generateWorkflow "Send an email notification when a new user signs up" "wf-1" "t0").workflow.steps.length = 3 ∧
    (generateWorkflow "Send an email notification when a new user signs up" "wf-1" "t0").clarificationNeeded = none := by
  decide

/-- C2 counterexample: the input "Set up a new React project with
TypeScript and testing" does not contain the substring "setup" (the text
has "set up" with a space), nor "create project" or "initialize", so the
generator does not classify it as `app-setup`: it falls through to the
general template and produces one step, not four. -/
theorem generate_react_setup_counterexample :
    (generateWorkflow "Set up a new React project with TypeScript and testing" "wf-1" "t0").workflow.domain = .general ∧
    ¬ ((generateWorkflow "Set up a new React project with TypeScript and testing" "wf-1" "t0").workflow.domain = .appSetup) ∧
    (generateWorkflow "Set up a new React project with TypeScript and testing" "wf-1" "t0").workflow.steps.length = 1 ∧
    ¬ ((generateWorkflow "Set up a new React project with TypeScript and testing" "wf-1" "t0").workflow.steps.length = 4) := by
  decide

/-- C2 amended: that input lands in the general template; no vocabulary
verb occurs in it, so the workflow has exactly the single fallback
`process` action step. -/
theorem generate_react_setup_amended :
    (generateWorkflow "Set up a new React project with TypeScript and testing" "wf-1" "t0").workflow.domain = .general ∧
    (generateWorkflow "Set up a new React project with TypeScript and testing" "wf-1" "t0").workflow.steps.map (fun s => s.title) = ["Process"] ∧
    (generateWorkflow "Set up a new React project with TypeScript and testing" "wf-1" "t0").workflow.steps.map (fun s => s.config.action) = [some "process"] ∧
    (generateWorkflow "Set up a new React project with TypeScript and testing" "wf-1" "t0").workflow.steps.map (fun s => s.id) = ["step-1"] := by
  decide


theorem generalSteps_length (l : List String) (i : Nat) :
    (generalSteps l i).length = l.length := by
  induction l generalizing i with
  | nil => rfl
  | cons a rest ih => simp [generalSteps, ih]

theorem generalSteps_getElem? (l : List String) (i k : Nat) :
    (generalSteps l i)[k]? = l[k]?.map (fun a => generalStep a (i + k)) := by
  induction l generalizing i k with
  | nil => simp [generalSteps]
  | cons a rest ih =>
    cases k with
    | zero => simp [generalSteps]
    | succ m =>
      simp only [generalSteps, List.getElem?_cons_succ]
      rw [ih (i + 1) m]
      have harith : i + 1 + m = i + (m + 1) := by omega
      rw [harith]

theorem extractActions_eq_foundVerbs (input : String) :
    extractActions input =
      if (foundVerbs input).length > 0 then foundVerbs input else ["process"] := rfl

/-- C5 counterexample: for the input "hello there world today" (which
reaches the general template and contains no vocabulary verb), the
generated workflow has one step whose description is "Execute: process",
not the raw input as the claim's fallback clause states. -/
theorem general_fallback_counterexample :
    foundVerbs (trimStr (toLowerStr "hello there world today")) = [] ∧
    (generateWorkflow "hello there world today" "wf-1" "t0").workflow.domain = .general ∧
    (generateWorkflow "hello there world today" "wf-1" "t0").workflow.steps.length = 1 ∧
    (generateWorkflow "hello there world today" "wf-1" "t0").workflow.steps.map (fun s => s.description) = ["Execute: process"] ∧
    ¬ ((generateWorkflow "hello there world today" "wf-1" "t0").workflow.steps.map (fun s => s.description) = ["hello there world today"]) := by
  decide

/-- C5 amended: for every input reaching the general template, if at
least one vocabulary verb occurs, the workflow has one `action` step per
occurring verb in vocabulary order, chained by dependencies; if no verb
occurs, the workflow has exactly one step running the fallback verb
"process" with description "Execute: process" (the raw-input fallback
step of the source is unreachable). -/
theorem general_template_amended (userInput wfId now : String)
    (h1 : 10 ≤ (trimStr (toLowerStr userInput)).length)
    (h2 : strIncludes (trimStr (toLowerStr userInput)) " " = true)
    (hk1 : strIncludes (trimStr (toLowerStr userInput)) "remind" = false)
    (hk2 : strIncludes (trimStr (toLowerStr userInput)) "notification" = false)
    (hk3 : strIncludes (trimStr (toLowerStr userInput)) "alert" = false)
    (hk4 : strIncludes (trimStr (toLowerStr userInput)) "setup" = false)
    (hk5 : strIncludes (trimStr (toLowerStr userInput)) "create project" = false)
    (hk6 : strIncludes (trimStr (toLowerStr userInput)) "initialize" = false)
    (hk7 : strIncludes (trimStr (toLowerStr userInput)) "email" = false)
    (hk8 : strIncludes (trimStr (toLowerStr userInput)) "send" = false)
    (hk9 : strIncludes (trimStr (toLowerStr userInput)) "notify" = false) :
    (generateWorkflow userInput wfId now).workflow.domain = .general ∧
    (foundVerbs (trimStr (toLowerStr userInput)) = [] →
      (generateWorkflow userInput wfId now).workflow.steps =
        [{ id := "step-1"
           type := .action
           title := "Process"
           description := "Execute: process"
           reasoning := "This step performs the action \"process\" as specified in your workflow description"
           config := { action := some "process" }
           dependencies := none }]) ∧
    (foundVerbs (trimStr (toLowerStr userInput)) ≠ [] →
      (generateWorkflow userInput wfId now).workflow.steps.length =
        (foundVerbs (trimStr (toLowerStr userInput))).length ∧
      ∀ k, ∀ hk : k < (foundVerbs (trimStr (toLowerStr userInput))).length,
        (generateWorkflow userInput wfId now).workflow.steps[k]? =
          some { id := "step-" ++ toString (k + 1)
                 type := .action
                 title := capitalizeFirst ((foundVerbs (trimStr (toLowerStr userInput))).get ⟨k, hk⟩)
                 description := "Execute: " ++ (foundVerbs (trimStr (toLowerStr userInput))).get ⟨k, hk⟩
                 reasoning := "This step performs the action \"" ++ (foundVerbs (trimStr (toLowerStr userInput))).get ⟨k, hk⟩ ++ "\" as specified in your workflow description"
                 config := { action := some ((foundVerbs (trimStr (toLowerStr userInput))).get ⟨k, hk⟩) }
                 dependencies := if k = 0 then none else some ["step-" ++ toString k] }) := by
  have hguard : (decide ((trimStr (toLowerStr userInput)).length < 10)
      || !strIncludes (trimStr (toLowerStr userInput)) " ") = false := by
    rw [h2]
    simp only [Bool.not_true, Bool.or_false, decide_eq_false_iff_not]
    omega
  have hkey : generateWorkflow userInput wfId now =
      { workflow := generateGeneralWorkflow userInput (trimStr (toLowerStr userInput)) wfId now } := by
    simp only [generateWorkflow]
    rw [hguard, hk1, hk2, hk3, hk4, hk5, hk6, hk7, hk8, hk9]
    simp
  rw [hkey]
  refine ⟨rfl, ?_, ?_⟩
  · intro hempty
    have hacts : extractActions (trimStr (toLowerStr userInput)) = ["process"] := by
      rw [extractActions_eq_foundVerbs, hempty]
      simp
    show (generateGeneralWorkflow userInput (trimStr (toLowerStr userInput)) wfId now).steps = _
    simp only [generateGeneralWorkflow, hacts]
    rw [if_neg (by decide)]
    decide
  · intro hne
    have hpos : 0 < (foundVerbs (trimStr (toLowerStr userInput))).length := by
      simpa [List.length_pos] using hne
    have hacts : extractActions (trimStr (toLowerStr userInput)) =
        foundVerbs (trimStr (toLowerStr userInput)) := by
      rw [extractActions_eq_foundVerbs, if_pos hpos]
    have hsteps : (generateGeneralWorkflow userInput (trimStr (toLowerStr userInput)) wfId now).steps =
        generalSteps (foundVerbs (trimStr (toLowerStr userInput))) 0 := by
      simp only [generateGeneralWorkflow, hacts]
      rw [if_neg]
      rw [generalSteps_length]
      omega
    rw [hsteps]
    refine ⟨generalSteps_length _ 0, ?_⟩
    intro k hk
    rw [generalSteps_getElem?, List.getElem?_eq_getElem (by simpa using hk)]
    simp only [Option.map_some', Option.some.injEq]
    show generalStep _ (0 + k) = _
    rw [Nat.zero_add]
    unfold generalStep
    cases k with
    | zero => rfl
    | succ m =>
      rw [if_pos (Nat.succ_pos m), if_neg (Nat.succ_ne_zero m)]
      simp [List.get_eq_getElem]

/-- Witness for C5 at the concrete input "check the data and save
results", whose occurring verbs are "check" and "save". -/
theorem general_template_amended_witness :
    foundVerbs (trimStr (toLowerStr "check the data and save results")) = ["check", "save"] ∧
    (generateWorkflow "check the data and save results" "wf-1" "t0").workflow.domain = .general :=
  ⟨by decide,
    (general_template_amended "check the data and save results" "wf-1" "t0" (by decide) (by decide)
      (by decide) (by decide) (by decide) (by decide) (by decide) (by decide) (by decide)
      (by decide) (by decide)).1⟩

/-- C3 counterexample: in `depFailWorkflow`, step one is a non-`condition`
step whose log becomes `failed` ("Dependencies not met"), yet the later
step still transitions from `pending` through `running` to `completed`:
a dependency failure of a non-`condition` step does not halt the run, so
the claim as stated (over any `failed` log status) is false. -/
theorem halt_after_failed_counterexample :
    (depFailWorkflow.steps.getD 0 dummyStep).type ≠ .condition ∧
    (((executeWorkflow depFailWorkflow "exec-1" rndTrue).trace.getD 1 []).getD 0 dummyLog).status = .failed ∧
    (((executeWorkflow depFailWorkflow "exec-1" rndTrue).trace.getD 1 []).getD 0 dummyLog).error = some "Dependencies not met" ∧
    (((executeWorkflow depFailWorkflow "exec-1" rndTrue).trace.getD 1 []).getD 1 dummyLog).status = .pending ∧
    (((executeWorkflow depFailWorkflow "exec-1" rndTrue).trace.getD 3 []).getD 1 dummyLog).status = .completed ∧
    ((executeWorkflow depFailWorkflow "exec-1" rndTrue).exec.logs.getD 1 dummyLog).status = .completed := by
  decide

/-- C3 amended: once a non-`condition` step's SIMULATED execution fails
(the step actually ran and drew a failure outcome), every later step's
log entry stays `pending` in the final record and in every log-array
state of the run. -/
theorem halt_after_sim_failure (w : Workflow) (execId : String) (rnd : Nat → Bool)
    (i j : Nat) (hi : i < w.steps.length)
    (hev : stepEvent rnd (runUpTo w execId rnd i) (w.steps.get ⟨i, hi⟩) = .ran false)
    (hc : (w.steps.get ⟨i, hi⟩).type ≠ .condition)
    (hij : i < j) :
    (executeWorkflow w execId rnd).exec.logs.length = w.steps.length ∧
    (∀ e, (executeWorkflow w execId rnd).exec.logs[j]? = some e → e.status = .pending) ∧
    ∀ L ∈ (executeWorkflow w execId rnd).trace,
      L.length = w.steps.length ∧ ∀ e, L[j]? = some e → e.status = .pending := by
  obtain ⟨hrun, hhalt⟩ := run_halts_at w execId rnd i hi hev hc
  obtain ⟨hp1, hp2⟩ := pendingAt_runUpTo w execId rnd j (i + 1) (by omega)
  have hexeclogs : (executeWorkflow w execId rnd).exec.logs =
      (runUpTo w execId rnd (i + 1)).exec.logs := by
    simp only [executeWorkflow]
    rw [hrun]
  have hexectrace : (executeWorkflow w execId rnd).trace =
      (runUpTo w execId rnd (i + 1)).trace := by
    simp only [executeWorkflow]
    rw [hrun]
  have hinv : LogsInv (w.steps.map (fun s => s.id)) (runUpTo w execId rnd (i + 1)) :=
    logsInv_runSteps rnd (w.steps.take (i + 1)) _ (logsInv_initState w execId)
  have hlen : ∀ (L : List ExecutionLog),
      L.map (fun e => e.stepId) = w.steps.map (fun s => s.id) →
      L.length = w.steps.length := by
    intro L hL
    have := congrArg List.length hL
    simpa using this
  refine ⟨?_, ?_, ?_⟩
  · rw [hexeclogs]
    exact hlen _ hinv.1
  · rw [hexeclogs]
    exact hp1
  · intro L hL
    rw [hexectrace] at hL
    exact ⟨hlen _ (hinv.2 L hL), hp2 L hL⟩

/-- Witness for C3 (amended) on `twoActionWorkflow` with an oracle whose
simulated outcomes all fail: step one fails and step two stays pending. -/
theorem halt_after_sim_failure_witness :
    (stepEvent rndFalse (runUpTo twoActionWorkflow "exec-1" rndFalse 0)
        (twoActionWorkflow.steps.get ⟨0, by decide⟩) = .ran false) ∧
    ((twoActionWorkflow.steps.get ⟨0, by decide⟩).type ≠ .condition) ∧
    ∀ e, (executeWorkflow twoActionWorkflow "exec-1" rndFalse).exec.logs[1]? = some e →
      e.status = .pending :=
  ⟨by decide, by decide,
    (halt_after_sim_failure twoActionWorkflow "exec-1" rndFalse 0 1 (by decide) (by decide)
      (by decide) (by decide)).2.1⟩

/-- C4 counterexample: the initial snapshot is the spread copy
`{ ...execution }`, whose `logs` field aliases the live array: for a
one-step always-successful run it is emitted while the one log entry is
`pending`, but observing through it after the run shows `completed` —
the snapshot is not a value-independent copy. -/
theorem snapshot_copy_counterexample :
    ((executeWorkflow oneActionWorkflow "exec-1" rndTrue).snaps.getD 0 dummySnap).site = .init ∧
    ((executeWorkflow oneActionWorkflow "exec-1" rndTrue).snaps.getD 0 dummySnap).emittedLogs.map (fun e => e.status) = [.pending] ∧
    (observeLogs (executeWorkflow oneActionWorkflow "exec-1" rndTrue).exec.logs
      ((executeWorkflow oneActionWorkflow "exec-1" rndTrue).snaps.getD 0 dummySnap)).map (fun e => e.status) = [.completed] ∧
    ¬ (observeLogs (executeWorkflow oneActionWorkflow "exec-1" rndTrue).exec.logs
        ((executeWorkflow oneActionWorkflow "exec-1" rndTrue).snaps.getD 0 dummySnap) =
      ((executeWorkflow oneActionWorkflow "exec-1" rndTrue).snaps.getD 0 dummySnap).emittedLogs) := by
  decide

/-- C4 amended: the per-step snapshots (emitted via
`JSON.parse(JSON.stringify(execution))`) are value-independent copies —
observing through them later always yields the emission-time value — and
the final snapshot, though a spread copy, is emitted after the last
mutation, so observing through it at the end of the run also yields its
emission-time value.  Only the initial spread-copied snapshot can be
changed by later mutations. -/
theorem snapshot_copy_amended (w : Workflow) (execId : String) (rnd : Nat → Bool) :
    ∀ s ∈ (executeWorkflow w execId rnd).snaps,
      ((s.site = .stepRunning ∨ s.site = .stepDone) →
        ∀ current, observeLogs current s = s.emittedLogs) ∧
      (s.site = .final →
        observeLogs (executeWorkflow w execId rnd).exec.logs s = s.emittedLogs) := by
  intro s hs
  have hsnapinv := snapInv_runSteps rnd w.steps (initState w execId) (snapInv_initState w execId)
  have hsnaps : (executeWorkflow w execId rnd).snaps =
      (runSteps rnd w.steps (initState w execId)).snaps ++
        [shallowSnap .final (executeWorkflow w execId rnd).exec] := by
    simp only [executeWorkflow]
  rw [hsnaps] at hs
  rcases List.mem_append.mp hs with hs | hs
  · obtain ⟨hnf, hdeep⟩ := hsnapinv s hs
    constructor
    · intro hsite current
      have hfr := hdeep hsite
      simp [observeLogs, hfr]
    · intro hfin
      exact absurd hfin hnf
  · simp only [List.mem_singleton] at hs
    subst hs
    constructor
    · rintro (h | h) <;> simp [shallowSnap] at h
    · intro _
      rfl

/-- Witness for C4 (amended) on a zero-step run: its final snapshot,
observed against the final logs, shows the emission-time value. -/
theorem snapshot_copy_amended_witness :
    ((executeWorkflow (cxWorkflow []) "exec-1" rndTrue).snaps.getD 1 dummySnap ∈
      (executeWorkflow (cxWorkflow []) "exec-1" rndTrue).snaps) ∧
    (((executeWorkflow (cxWorkflow []) "exec-1" rndTrue).snaps.getD 1 dummySnap).site = .final →
      observeLogs (executeWorkflow (cxWorkflow []) "exec-1" rndTrue).exec.logs
          ((executeWorkflow (cxWorkflow []) "exec-1" rndTrue).snaps.getD 1 dummySnap) =
        ((executeWorkflow (cxWorkflow []) "exec-1" rndTrue).snaps.getD 1 dummySnap).emittedLogs) :=
  ⟨by decide,
    (snapshot_copy_amended (cxWorkflow []) "exec-1" rndTrue _ (by decide)).2⟩

/-- C6: for every run, when a step declaring dependencies is reached (the
run has not halted) and some declared dependency's log entry is not
`completed` at that moment, the step's log entry becomes `failed` with
error exactly "Dependencies not met"; its simulated execution never runs
(no random outcome is drawn, no progress snapshot is emitted, and its
start/end/output fields are untouched); other entries are untouched; and
this failure by itself neither halts the loop nor sets the overall
status to `failed`. -/
theorem dependency_gating (w : Workflow) (execId : String) (rnd : Nat → Bool)
    (i : Nat) (deps : List String) (hi : i < w.steps.length)
    (hreach : (runUpTo w execId rnd i).halted = false)
    (hdeps : (w.steps.get ⟨i, hi⟩).dependencies = some deps)
    (hfail : depsComplete (runUpTo w execId rnd i).exec.logs deps = false) :
    (runUpTo w execId rnd (i + 1)).draws = (runUpTo w execId rnd i).draws ∧
    (runUpTo w execId rnd (i + 1)).snaps = (runUpTo w execId rnd i).snaps ∧
    (runUpTo w execId rnd (i + 1)).halted = false ∧
    (runUpTo w execId rnd (i + 1)).exec.status = (runUpTo w execId rnd i).exec.status ∧
    (runUpTo w execId rnd i).exec.logs.findIdx
        (fun e => e.stepId == (w.steps.get ⟨i, hi⟩).id) <
      (runUpTo w execId rnd (i + 1)).exec.logs.length ∧
    (∀ e0 e1,
      (runUpTo w execId rnd i).exec.logs[(runUpTo w execId rnd i).exec.logs.findIdx
          (fun e => e.stepId == (w.steps.get ⟨i, hi⟩).id)]? = some e0 →
      (runUpTo w execId rnd (i + 1)).exec.logs[(runUpTo w execId rnd i).exec.logs.findIdx
          (fun e => e.stepId == (w.steps.get ⟨i, hi⟩).id)]? = some e1 →
      e1 = { e0 with status := .failed, error := some "Dependencies not met" }) ∧
    ∀ k, k ≠ (runUpTo w execId rnd i).exec.logs.findIdx
        (fun e => e.stepId == (w.steps.get ⟨i, hi⟩).id) →
      (runUpTo w execId rnd (i + 1)).exec.logs[k]? =
        (runUpTo w execId rnd i).exec.logs[k]? := by
  have hg : stepGate (runUpTo w execId rnd i) (w.steps.get ⟨i, hi⟩) = false := by
    unfold stepGate
    rw [hdeps]
    exact hfail
  have hstep : runUpTo w execId rnd (i + 1) =
      processStep rnd (runUpTo w execId rnd i) (w.steps.get ⟨i, hi⟩) := by
    rw [runUpTo_succ w execId rnd i hi]
    unfold execStepFold
    rw [if_neg (by rw [hreach]; simp)]
  obtain ⟨hlogs, htr, hdr, hha, hstt, hsn, hcl⟩ :=
    processStep_depFail rnd (runUpTo w execId rnd i) (w.steps.get ⟨i, hi⟩) hg
  obtain ⟨hfle, hflen⟩ := findIdx_lt_of_runUpTo w execId rnd i hi
  rw [hstep]
  refine ⟨hdr, hsn, by rw [hha, hreach], hstt, ?_, ?_, ?_⟩
  · rw [hlogs, updateAt_length]
    omega
  · intro e0 e1 he0 he1
    rw [hlogs, updateAt_getElem?_self, he0] at he1
    simp only [Option.map_some', Option.some.injEq] at he1
    exact he1.symm
  · intro k hk
    rw [hlogs, updateAt_getElem?_ne _ _ _ _ (fun h => hk h.symm)]

/-- Witness for C6 on `depFailWorkflow`: its first step declares the
never-satisfied dependency "nope"; processing it draws no random outcome. -/
theorem dependency_gating_witness :
    ((runUpTo depFailWorkflow "exec-1" rndTrue 0).halted = false ∧
      (depFailWorkflow.steps.get ⟨0, by decide⟩).dependencies = some ["nope"] ∧
      depsComplete (runUpTo depFailWorkflow "exec-1" rndTrue 0).exec.logs ["nope"] = false) ∧
    (runUpTo depFailWorkflow "exec-1" rndTrue 1).draws =
      (runUpTo depFailWorkflow "exec-1" rndTrue 0).draws :=
  ⟨by decide,
    (dependency_gating depFailWorkflow "exec-1" rndTrue 0 ["nope"] (by decide) (by decide)
      (by decide) (by decide)).1⟩

/-- C9: for every workflow and every oracle, the returned execution
record has exactly one log entry per step, in order, with matching step
ids, and every log-array state during the run (every element of the
trace) has that same shape — entries are never added or deleted. -/
theorem executor_log_shape (w : Workflow) (execId : String) (rnd : Nat → Bool) :
    (executeWorkflow w execId rnd).exec.logs.map (fun e => e.stepId) =
      w.steps.map (fun s => s.id) ∧
    (executeWorkflow w execId rnd).exec.logs.length = w.steps.length ∧
    ∀ L ∈ (executeWorkflow w execId rnd).trace,
      L.map (fun e => e.stepId) = w.steps.map (fun s => s.id) ∧
      L.length = w.steps.length := by
  obtain ⟨h1, h2⟩ := logsInv_runSteps rnd w.steps (initState w execId)
    (logsInv_initState w execId)
  have hlen : ∀ (L : List ExecutionLog),
      L.map (fun e => e.stepId) = w.steps.map (fun s => s.id) →
      L.length = w.steps.length := by
    intro L hL
    have := congrArg List.length hL
    simpa using this
  have hexeclogs : (executeWorkflow w execId rnd).exec.logs =
      (runSteps rnd w.steps (initState w execId)).exec.logs := by
    simp only [executeWorkflow]
  have hexectrace : (executeWorkflow w execId rnd).trace =
      (runSteps rnd w.steps (initState w execId)).trace := by
    simp only [executeWorkflow]
  refine ⟨?_, ?_, ?_⟩
  · rw [hexeclogs]
    exact h1
  · rw [hexeclogs]
    exact hlen _ h1
  · intro L hL
    rw [hexectrace] at hL
    exact ⟨h2 L hL, hlen _ (h2 L hL)⟩

/-- Witness for C9 on a concrete two-step run. -/
theorem executor_log_shape_witness :
    (executeWorkflow twoActionWorkflow "exec-2" rndTrue).exec.logs.map (fun e => e.stepId) =
      twoActionWorkflow.steps.map (fun s => s.id) :=
  (executor_log_shape twoActionWorkflow "exec-2" rndTrue).1

/-- C10: the returned overall status is `failed` exactly when some step
actually ran its simulated execution, drew a failure, and is not of kind
`condition`; the overall status is always `completed` or `failed`; and a
run can return `completed` while a per-step log is `failed` (here: a
failing `condition` step). -/
theorem overall_status_characterization :
    (∀ (w : Workflow) (execId : String) (rnd : Nat → Bool),
      ((executeWorkflow w execId rnd).exec.status = .failed ↔
        ∃ i, ∃ hi : i < w.steps.length,
          stepEvent rnd (runUpTo w execId rnd i) (w.steps.get ⟨i, hi⟩) = .ran false ∧
          (w.steps.get ⟨i, hi⟩).type ≠ .condition) ∧
      ((executeWorkflow w execId rnd).exec.status = .completed ∨
        (executeWorkflow w execId rnd).exec.status = .failed)) ∧
    ((executeWorkflow oneConditionWorkflow "exec-1" rndFalse).exec.status = .completed ∧
      ∃ e ∈ (executeWorkflow oneConditionWorkflow "exec-1" rndFalse).exec.logs,
        e.status = .failed) := by
  constructor
  · intro w execId rnd
    have hs := executeWorkflow_status w execId rnd
    refine ⟨?_, hs.2⟩
    rw [hs.1, runSteps_full, halted_iff w execId rnd w.steps.length]
    constructor
    · rintro ⟨i, hi, -, hev, hc⟩
      exact ⟨i, hi, hev, hc⟩
    · rintro ⟨i, hi, hev, hc⟩
      exact ⟨i, hi, hi, hev, hc⟩
  · exact ⟨by decide, by decide⟩

/-- Witness instance for C10 on a concrete run. -/
theorem overall_status_witness :
    (executeWorkflow oneActionWorkflow "exec-3" rndTrue).exec.status = .completed ∨
    (executeWorkflow oneActionWorkflow "exec-3" rndTrue).exec.status = .failed :=
  (overall_status_characterization.1 oneActionWorkflow "exec-3" rndTrue).2
